import Mathlib

/-
Verification development for the byte-stream adapter layer
(vowpalwabbit/io/io_adapter.cc).  Each adapter's state and operations are
embedded as executable Lean definitions, with the POSIX branch of every
platform conditional; machine-level calls (open, read, write, lseek, and the
zlib gz functions) are modelled by small explicit state machines that follow
their documented semantics.  Bytes are Nat, buffers are lists of bytes, and a
ssize_t return value is an Int.
-/

/-- The two open modes of file-backed adapters (enum class file_mode). -/
inductive FileMode where
| read
| write
deriving DecidableEq, Repr

/-- Model of an open POSIX file: its byte contents and the current offset. -/
structure OsFile where
  contents : List Nat
  pos : Nat
deriving DecidableEq, Repr

/-- Model of the outcome of open(2): the opened file (none models a return of
-1) together with the errno the call left behind. -/
structure OpenResult where
  fd : Option OsFile
  errno : Nat
deriving DecidableEq, Repr

/-- POSIX errno for a pathname that does not resolve. -/
def ENOENT : Nat := 2

/-- POSIX open(2) on a pathname with mode-dependent flags: an empty pathname
never resolves and fails with ENOENT; any other pathname is decided by the
file-system oracle fs (which also covers the O_CREAT side of write mode). -/
def posixOpen (fs : List Char → FileMode → OpenResult) (filename : List Char)
    (mode : FileMode) : OpenResult :=
  if filename = [] then { fd := none, errno := ENOENT } else fs filename mode

/-- Errors raised via THROWERRNO at construction time: the exception names the
offending path and carries the OS errno. -/
inductive IoException where
| openFailure : List Char → Nat → IoException
deriving DecidableEq, Repr

/-- State of file_adapter: the descriptor (none models _file_descriptor == -1)
and the fixed _mode. -/
structure file_adapter where
  fd : Option OsFile
  _mode : FileMode
deriving DecidableEq, Repr

/-- Embedding of file_adapter::file_adapter(const char*, file_mode), POSIX
branch: open the path with mode-dependent flags, then throw via THROWERRNO
exactly when the descriptor is -1 and the path is non-empty. -/
def file_adapter.construct (fs : List Char → FileMode → OpenResult)
    (filename : List Char) (mode : FileMode) : Except IoException file_adapter :=
  let r := posixOpen fs filename mode
  if r.fd = none ∧ filename ≠ [] then
    Except.error (IoException.openFailure filename r.errno)
  else Except.ok { fd := r.fd, _mode := mode }

/-- POSIX read(2): on descriptor -1 the call fails and returns -1 (EBADF);
otherwise it transfers up to num_bytes from the current offset and advances
the offset by the number of bytes transferred. -/
def osRead : Option OsFile → Nat → Int × List Nat × Option OsFile
| none, _ => (-1, [], none)
| some f, num_bytes =>
  let bytes := (f.contents.drop f.pos).take num_bytes
  ((bytes.length : Int), bytes, some { contents := f.contents, pos := f.pos + bytes.length })

/-- POSIX write(2): on descriptor -1 the call fails and returns -1; otherwise
it stores the whole buffer at the current offset and advances it. -/
def osWrite : Option OsFile → List Nat → Int × Option OsFile
| none, _ => (-1, none)
| some f, bytes =>
  ((bytes.length : Int),
    some { contents := f.contents.take f.pos ++ bytes ++ f.contents.drop (f.pos + bytes.length),
           pos := f.pos + bytes.length })

/-- POSIX lseek(fd, 0, SEEK_SET): rewinds a valid descriptor to offset 0; on
descriptor -1 it fails and changes nothing. -/
def osLseekZero : Option OsFile → Option OsFile
| none => none
| some f => some { contents := f.contents, pos := 0 }

/-- Embedding of file_adapter::read: assert(_mode == file_mode::read) — a
violated assertion aborts the process, modelled as none — then delegate to
::read and hand its result straight back. -/
def file_adapter.read (s : file_adapter) (num_bytes : Nat) :
    Option (Int × List Nat × file_adapter) :=
  if s._mode = FileMode.read then
    let r := osRead s.fd num_bytes
    some (r.1, r.2.1, { fd := r.2.2, _mode := s._mode })
  else none

/-- Embedding of file_adapter::write: assert(_mode == file_mode::write), then
delegate to ::write. -/
def file_adapter.write (s : file_adapter) (bytes : List Nat) :
    Option (Int × file_adapter) :=
  if s._mode = FileMode.write then
    let r := osWrite s.fd bytes
    some (r.1, { fd := r.2, _mode := s._mode })
  else none

/-- Embedding of file_adapter::reset: lseek back to the start of the file (no
assertion guards this call). -/
def file_adapter.reset (s : file_adapter) : file_adapter :=
  { fd := osLseekZero s.fd, _mode := s._mode }

/-- Constructor flag reader(true) of file_adapter: it is resettable. -/
def file_adapter.resettableFlag : Bool := true

/-- Model of a zlib gzFile stream: the logical (uncompressed) byte sequence,
the read position, and whether the codec has entered its error state. -/
structure GzStream where
  contents : List Nat
  pos : Nat
  broken : Bool
deriving DecidableEq, Repr

/-- zlib gzread: returns -1 on a NULL handle or on a codec error; otherwise up
to num_bytes uncompressed bytes from the current position (0 of them at end of
stream). -/
def gzread : Option GzStream → Nat → Int × List Nat × Option GzStream
| none, _ => (-1, [], none)
| some g, num_bytes =>
  if g.broken then (-1, [], some g)
  else
    let bytes := (g.contents.drop g.pos).take num_bytes
    ((bytes.length : Int), bytes,
      some { contents := g.contents, pos := g.pos + bytes.length, broken := false })

/-- zlib gzwrite: returns 0 on a NULL handle or on a codec error; otherwise it
consumes the whole buffer and returns its length. -/
def gzwrite : Option GzStream → List Nat → Int × Option GzStream
| none, _ => (0, none)
| some g, bytes =>
  if g.broken then (0, some g)
  else ((bytes.length : Int),
    some { contents := g.contents ++ bytes, pos := g.pos, broken := false })

/-- zlib gzseek(file, 0, SEEK_SET): rewinds a healthy stream to offset 0; a
NULL or errored handle is left unchanged (the call fails). -/
def gzseekZero : Option GzStream → Option GzStream
| none => none
| some g =>
  if g.broken then some g
  else some { contents := g.contents, pos := 0, broken := false }

/-- State of gzip_file_adapter: the gzFile handle (none models a NULL handle
from a failed gzopen) and the fixed _mode. -/
structure gzip_file_adapter where
  _gz_file : Option GzStream
  _mode : FileMode
deriving DecidableEq, Repr

/-- Embedding of gzip_file_adapter::gzip_file_adapter(const char*, file_mode):
gzopen the path with "rb"/"wb" and store the result; per the source comment
(TODO test for failure) a NULL handle is not detected, so construction always
completes and never reports an error. -/
def gzip_file_adapter.construct (gzfs : List Char → FileMode → Option GzStream)
    (filename : List Char) (mode : FileMode) : Except IoException gzip_file_adapter :=
  Except.ok { _gz_file := gzfs filename mode, _mode := mode }

/-- Embedding of gzip_file_adapter::read: assert read mode, call gzread, and
return the codec count when positive, 0 otherwise. -/
def gzip_file_adapter.read (s : gzip_file_adapter) (num_bytes : Nat) :
    Option (Int × List Nat × gzip_file_adapter) :=
  if s._mode = FileMode.read then
    let r := gzread s._gz_file num_bytes
    some (if r.1 > 0 then r.1 else 0, r.2.1, { _gz_file := r.2.2, _mode := s._mode })
  else none

/-- Embedding of gzip_file_adapter::write: assert write mode, call gzwrite, and
return the codec count when positive, 0 otherwise. -/
def gzip_file_adapter.write (s : gzip_file_adapter) (bytes : List Nat) :
    Option (Int × gzip_file_adapter) :=
  if s._mode = FileMode.write then
    let r := gzwrite s._gz_file bytes
    some (if r.1 > 0 then r.1 else 0, { _gz_file := r.2, _mode := s._mode })
  else none

/-- Embedding of gzip_file_adapter::reset: gzseek to the start. -/
def gzip_file_adapter.reset (s : gzip_file_adapter) : gzip_file_adapter :=
  { _gz_file := gzseekZero s._gz_file, _mode := s._mode }

/-- Constructor flag reader(true) of gzip_file_adapter: it is resettable. -/
def gzip_file_adapter.resettableFlag : Bool := true

/-- State of gzip_stdio_adapter: gzFile handles over the standard input and
standard output descriptors, both opened once at construction. -/
structure gzip_stdio_adapter where
  _gz_stdin : Option GzStream
  _gz_stdout : Option GzStream
deriving DecidableEq, Repr

/-- Embedding of gzip_stdio_adapter::read: gzread on the stdin handle with the
same non-positive-to-zero normalization, no mode assertion. -/
def gzip_stdio_adapter.read (s : gzip_stdio_adapter) (num_bytes : Nat) :
    Int × List Nat × gzip_stdio_adapter :=
  let r := gzread s._gz_stdin num_bytes
  (if r.1 > 0 then r.1 else 0, r.2.1,
    { _gz_stdin := r.2.2, _gz_stdout := s._gz_stdout })

/-- Embedding of gzip_stdio_adapter::write: gzwrite on the stdout handle with
the same non-positive-to-zero normalization, no mode assertion. -/
def gzip_stdio_adapter.write (s : gzip_stdio_adapter) (bytes : List Nat) :
    Int × gzip_stdio_adapter :=
  let r := gzwrite s._gz_stdout bytes
  (if r.1 > 0 then r.1 else 0, { _gz_stdin := s._gz_stdin, _gz_stdout := r.2 })

/-- Constructor flag reader(false) of gzip_stdio_adapter: not resettable. -/
def gzip_stdio_adapter.resettableFlag : Bool := false

/-- Model of std::cout: the bytes pushed so far, the good/fail state, and how
many further bytes the underlying sink accepts before it enters the fail
state. -/
structure OStream where
  written : List Nat
  good : Bool
  limit : Nat
deriving DecidableEq, Repr

/-- std::ostream::write(buffer, n): a stream already in the fail state accepts
nothing; otherwise the sink takes what it can and the stream fails on a short
transfer.  The call itself reports no count to the caller. -/
def ostreamWrite (s : OStream) (bytes : List Nat) : OStream :=
  if s.good = false then s
  else if bytes.length ≤ s.limit then
    { written := s.written ++ bytes, good := true, limit := s.limit - bytes.length }
  else { written := s.written ++ bytes.take s.limit, good := false, limit := 0 }

/-- Embedding of stdio_adapter::write: write through std::cout and return
num_bytes unconditionally (the source notes no reliable count is available). -/
def stdio_adapter.write (cout : OStream) (bytes : List Nat) : Int × OStream :=
  ((bytes.length : Int), ostreamWrite cout bytes)

/-- Model of std::cin: the bytes still available. -/
structure IStream where
  avail : List Nat
deriving DecidableEq, Repr

/-- Embedding of stdio_adapter::read: std::cin.read(buffer, n) then gcount, the
number of characters actually extracted. -/
def stdio_adapter.read (cin : IStream) (num_bytes : Nat) : Int × List Nat × IStream :=
  let bytes := cin.avail.take num_bytes
  ((bytes.length : Int), bytes, { avail := cin.avail.drop num_bytes })

/-- Constructor flag reader(false) of stdio_adapter: not resettable. -/
def stdio_adapter.resettableFlag : Bool := false

/-- Model of a connected socket descriptor: its two directions. -/
structure OsSocket where
  inbound : List Nat
  outbound : List Nat
deriving DecidableEq, Repr

/-- Embedding of socket_adapter::read: a straight ::read on the socket
descriptor, no retry logic; partial results are returned as is. -/
def socket_adapter.read (sock : OsSocket) (num_bytes : Nat) : Int × List Nat × OsSocket :=
  let bytes := sock.inbound.take num_bytes
  ((bytes.length : Int), bytes,
    { inbound := sock.inbound.drop num_bytes, outbound := sock.outbound })

/-- Embedding of socket_adapter::write: a straight ::write on the socket
descriptor. -/
def socket_adapter.write (sock : OsSocket) (bytes : List Nat) : Int × OsSocket :=
  ((bytes.length : Int), { inbound := sock.inbound, outbound := sock.outbound ++ bytes })

/-- Constructor flag reader(false) of socket_adapter: not resettable. -/
def socket_adapter.resettableFlag : Bool := false

/-- Modelled from the spec: reader::reset() for non-resettable adapters.  The
reader base class is declared in io_adapter.h, which is not under src/; the
spec states that a non-resettable reader must reject reset() as a contract
violation, never silently succeed.  The rejection is modelled as a raised
message returned alongside the untouched adapter state. -/
def resetNotSupported {α : Type} (s : α) : Option String × α :=
  (some "Reset not supported", s)

/-- reset() on a socket_adapter (no override in the source): base behavior. -/
def socket_adapter.reset (sock : OsSocket) : Option String × OsSocket :=
  resetNotSupported sock

/-- reset() on a stdio_adapter (no override in the source): base behavior. -/
def stdio_adapter.reset (cin : IStream) : Option String × IStream :=
  resetNotSupported cin

/-- reset() on a gzip_stdio_adapter (no override in the source): base
behavior. -/
def gzip_stdio_adapter.reset (s : gzip_stdio_adapter) : Option String × gzip_stdio_adapter :=
  resetNotSupported s

/-- Embedding of vector_writer::write: reserve then insert the whole range
[buffer, buffer+num_bytes) at the end of the vector and return num_bytes;
reserve only grows capacity, which has no observable effect on contents. -/
def vector_writer.write (buf : List Nat) (bytes : List Nat) : Int × List Nat :=
  ((bytes.length : Int), buf ++ bytes)

/-- Run a sequence of vector_writer writes in order, collecting the returned
counts and the final buffer. -/
def vector_writer.runWrites (buf : List Nat) : List (List Nat) → List Int × List Nat
| [] => ([], buf)
| c :: cs =>
  let r := vector_writer.write buf c
  let rest := vector_writer.runWrites r.2 cs
  (r.1 :: rest.1, rest.2)

/-- State of buffer_view: the window [ data, data+len) kept as its byte list,
and the cursor kept as the offset read_head into it, so the pointer invariant
data <= read_head <= data+len reads 0 <= read_head <= data.length. -/
structure buffer_view where
  data : List Nat
  read_head : Nat
deriving DecidableEq, Repr

/-- Embedding of buffer_view::buffer_view(data, len): the cursor starts at
data. -/
def buffer_view.construct (data : List Nat) : buffer_view :=
  { data := data, read_head := 0 }

/-- Embedding of buffer_view::read: clip the request to the remaining range
(the pointer difference (data+len) - read_head), return 0 when nothing
remains, else memcpy that many bytes and advance the cursor. -/
def buffer_view.read (s : buffer_view) (num_bytes : Nat) : Int × List Nat × buffer_view :=
  let n := min (s.data.length - s.read_head) num_bytes
  if n = 0 then (0, [], s)
  else ((n : Int), (s.data.drop s.read_head).take n,
    { data := s.data, read_head := s.read_head + n })

/-- Embedding of buffer_view::reset: rewind read_head to data. -/
def buffer_view.reset (s : buffer_view) : buffer_view :=
  { data := s.data, read_head := 0 }

/-- Constructor flag reader(true) of buffer_view: it is resettable. -/
def buffer_view.resettableFlag : Bool := true

/-- Run a sequence of buffer_view reads with the given request sizes,
collecting each call's returned count and bytes. -/
def buffer_view.runReads (s : buffer_view) : List Nat → List (Int × List Nat) × buffer_view
| [] => ([], s)
| n :: ns =>
  let r := buffer_view.read s n
  let rest := buffer_view.runReads r.2.2 ns
  ((r.1, r.2.1) :: rest.1, rest.2)

/-- Run a sequence of file_adapter reads; none propagates an assertion abort. -/
def file_adapter.runReads (s : file_adapter) :
    List Nat → Option (List (Int × List Nat) × file_adapter)
| [] => some ([], s)
| n :: ns =>
  match file_adapter.read s n with
  | none => none
  | some r =>
    match file_adapter.runReads r.2.2 ns with
    | none => none
    | some rest => some ((r.1, r.2.1) :: rest.1, rest.2)

/-- A file_adapter freshly opened for reading on a file with the given
contents (descriptor valid, offset 0). -/
def file_adapter.freshRead (contents : List Nat) : file_adapter :=
  { fd := some { contents := contents, pos := 0 }, _mode := FileMode.read }

/-- Run a sequence of gzip_file_adapter reads; none propagates an assertion
abort. -/
def gzip_file_adapter.runReads (s : gzip_file_adapter) :
    List Nat → Option (List (Int × List Nat) × gzip_file_adapter)
| [] => some ([], s)
| n :: ns =>
  match gzip_file_adapter.read s n with
  | none => none
  | some r =>
    match gzip_file_adapter.runReads r.2.2 ns with
    | none => none
    | some rest => some ((r.1, r.2.1) :: rest.1, rest.2)

/-- A gzip_file_adapter freshly opened for reading on a compressed file whose
uncompressed contents are given (healthy handle, position 0). -/
def gzip_file_adapter.freshRead (contents : List Nat) : gzip_file_adapter :=
  { _gz_file := some { contents := contents, pos := 0, broken := false },
    _mode := FileMode.read }

/-- Modelled from the spec: std::shared_ptr reference counting on
details::socket_closer (the socket class declaration and the shared_ptr copies
made by socket::get_reader / socket::get_writer live in io_adapter.h and the
standard library, not under src/).  The field live counts the owners still
alive (the socket object plus every derived socket_adapter, each holding one
shared_ptr copy); closed counts how many times the destructor
details::socket_closer::~socket_closer ran close(fd). -/
structure CloserState where
  live : Nat
  closed : Nat
deriving DecidableEq, Repr

/-- Events in the life of one wrapped socket descriptor: derive is
socket::get_reader() or socket::get_writer() copying the shared_ptr into a new
stream object; destroy is the destruction of the socket object or of one
derived stream object, dropping one reference and running ~socket_closer —
which closes the descriptor — exactly when the dropped reference was the
last. -/
inductive CloserEvent where
| derive
| destroy
deriving DecidableEq, Repr

/-- One shared_ptr reference-count transition. -/
def closerStep (s : CloserState) : CloserEvent → CloserState
| CloserEvent.derive => { live := s.live + 1, closed := s.closed }
| CloserEvent.destroy =>
  { live := s.live - 1, closed := if s.live = 1 then s.closed + 1 else s.closed }

/-- State right after socket::socket(fd): the socket holds the one and only
shared reference to a closer that has not yet closed the descriptor. -/
def closerInit : CloserState := { live := 1, closed := 0 }

/-- Fold a trace of events over the reference-count state. -/
def closerRun (s : CloserState) : List CloserEvent → CloserState
| [] => s
| e :: es => closerRun (closerStep s e) es

/-- A trace is well-formed when every event fires while some owner is still
alive: a derivation needs the socket object alive, and a destruction needs the
destroyed object to exist. -/
def closerWf (s : CloserState) : List CloserEvent → Bool
| [] => true
| e :: es => decide (0 < s.live) && closerWf (closerStep s e) es

/-
Theorems.
-/

/-- Helper: the non-positive-to-zero normalization of codec results equals the
max with zero. -/
theorem if_pos_else_zero_eq_max (r : Int) : (if r > 0 then r else 0) = max r 0 := by
  rcases le_or_lt r 0 with h | h
  · rw [if_neg (by omega), max_eq_right h]
  · rw [if_pos h, max_eq_left h.le]

/-- Helper: closed form of a sequence of vector_writer writes — every chunk is
appended in order and its full length is returned. -/
theorem vector_writer_runWrites_closed (chunks : List (List Nat)) (buf : List Nat) :
    vector_writer.runWrites buf chunks
      = (chunks.map (fun c => (c.length : Int)), buf ++ chunks.flatten) := by
  induction chunks generalizing buf with
  | nil => simp [vector_writer.runWrites]
  | cons c cs ih => simp [vector_writer.runWrites, vector_writer.write, ih]

/-- C8: writing byte sequences [A, B, C] in order through vector_writer::write
produces a final buffer equal to A ++ B ++ C whatever the chunk sizes
(including empty ones); every write appends its full byte range and returns
the full requested count, and no write fails or drops a partial append. -/
theorem vector_writer_appends_in_order (v A B C : List Nat) :
    vector_writer.runWrites [] [A, B, C]
      = ([(A.length : Int), (B.length : Int), (C.length : Int)], A ++ B ++ C)
    ∧ vector_writer.runWrites v [A, B, C]
      = ([(A.length : Int), (B.length : Int), (C.length : Int)], v ++ (A ++ (B ++ C)))
    ∧ (∀ buf bytes, vector_writer.write buf bytes = ((bytes.length : Int), buf ++ bytes)) := by
  refine ⟨?_, ?_, fun buf bytes => rfl⟩
  · simp [vector_writer_runWrites_closed]
  · simp [vector_writer_runWrites_closed]

/-- C10: stdio_adapter::write returns exactly num_bytes unconditionally — in
particular it still reports full acceptance when std::cout is already in its
fail state and accepts nothing, so the plain stdio writer can never signal a
short write or an I/O error to its caller. -/
theorem stdio_write_reports_full_count (cout : OStream) (bytes : List Nat) :
    (stdio_adapter.write cout bytes).1 = (bytes.length : Int)
    ∧ (cout.good = false →
        (stdio_adapter.write cout bytes).2.written = cout.written
        ∧ (stdio_adapter.write cout bytes).1 = (bytes.length : Int)) := by
  refine ⟨rfl, fun h => ⟨?_, rfl⟩⟩
  simp [stdio_adapter.write, ostreamWrite, h]

/-- Witness for C10: a failed std::cout accepts nothing, yet write reported the
full count (here the state part, obtained by discharging the hypothesis). -/
theorem stdio_write_reports_full_count_witness :
    (stdio_adapter.write { written := [1], good := false, limit := 5 } [2, 3]).2.written = [1] :=
  ((stdio_write_reports_full_count { written := [1], good := false, limit := 5 } [2, 3]).2 rfl).1

/-- C2: evaluated at the failing input — when the codec open fails on a
non-empty path, gzip_file_adapter construction still completes with no error
and a NULL handle (the source's own TODO), while file_adapter under the same
circumstances raises the THROWERRNO open failure carrying the errno. -/
theorem gzip_open_failure_not_reported :
    gzip_file_adapter.construct (fun _ _ => none) ['x'] FileMode.read
      = Except.ok { _gz_file := none, _mode := FileMode.read }
    ∧ file_adapter.construct (fun _ _ => { fd := none, errno := 13 }) ['x'] FileMode.read
      = Except.error (IoException.openFailure ['x'] 13) := by
  exact ⟨rfl, rfl⟩

/-- C3 counterexample: opening a file adapter on the empty path does succeed at
construction (descriptor -1, no throw), but a subsequent read returns -1 —
the failed read(2) on the invalid descriptor — not zero. -/
theorem empty_path_read_not_zero_cex :
    file_adapter.construct (fun _ _ => { fd := none, errno := ENOENT }) [] FileMode.read
      = Except.ok { fd := none, _mode := FileMode.read }
    ∧ file_adapter.read { fd := none, _mode := FileMode.read } 1
      = some (-1, [], { fd := none, _mode := FileMode.read })
    ∧ (-1 : Int) ≠ 0 := by
  exact ⟨rfl, rfl, by decide⟩

/-- C3 amended: opening a file adapter on the empty path succeeds at
construction with no error — the descriptor stays -1 and no exception is
raised, whatever the file system does — and every subsequent read on that
adapter delivers no bytes and returns -1, the error result of read(2) on the
invalid descriptor, rather than a clean zero. -/
theorem empty_path_null_stream_reads_minus_one
    (fs : List Char → FileMode → OpenResult) (n : Nat) :
    file_adapter.construct fs [] FileMode.read
      = Except.ok { fd := none, _mode := FileMode.read }
    ∧ file_adapter.read { fd := none, _mode := FileMode.read } n
      = some (-1, [], { fd := none, _mode := FileMode.read }) := by
  exact ⟨by simp [file_adapter.construct, posixOpen], rfl⟩

/-- C4: each non-resettable adapter (socket, plain stdio, compressed stdio) was
constructed with reader(false), its reset() rejects the call as a contract
violation with the raised message, and the rejected call leaves the stream
state untouched, so subsequent reads return exactly the data they would have
returned without the reset attempt. -/
theorem non_resettable_reset_rejected (sock : OsSocket) (cin : IStream)
    (gs : gzip_stdio_adapter) (n : Nat) :
    socket_adapter.resettableFlag = false
    ∧ stdio_adapter.resettableFlag = false
    ∧ gzip_stdio_adapter.resettableFlag = false
    ∧ socket_adapter.reset sock = (some "Reset not supported", sock)
    ∧ stdio_adapter.reset cin = (some "Reset not supported", cin)
    ∧ gzip_stdio_adapter.reset gs = (some "Reset not supported", gs)
    ∧ socket_adapter.read (socket_adapter.reset sock).2 n = socket_adapter.read sock n
    ∧ stdio_adapter.read (stdio_adapter.reset cin).2 n = stdio_adapter.read cin n
    ∧ gzip_stdio_adapter.read (gzip_stdio_adapter.reset gs).2 n = gzip_stdio_adapter.read gs n := by
  exact ⟨rfl, rfl, rfl, rfl, rfl, rfl, rfl, rfl, rfl⟩

/-- C5: read on a write-mode adapter and write on a read-mode adapter are
checked by assertion and abort (modelled as none) for the plain-file and
compressed-file adapters alike — no recoverable error value is produced — and
the mode fixed at construction is never changed by read, write or reset. -/
theorem mode_mismatch_asserts_and_mode_fixed (s : file_adapter) (g : gzip_file_adapter)
    (n : Nat) (bytes : List Nat) :
    (s._mode = FileMode.write → file_adapter.read s n = none)
    ∧ (s._mode = FileMode.read → file_adapter.write s bytes = none)
    ∧ (g._mode = FileMode.write → gzip_file_adapter.read g n = none)
    ∧ (g._mode = FileMode.read → gzip_file_adapter.write g bytes = none)
    ∧ (∀ r, file_adapter.read s n = some r → r.2.2._mode = s._mode)
    ∧ (∀ r, file_adapter.write s bytes = some r → r.2._mode = s._mode)
    ∧ (file_adapter.reset s)._mode = s._mode
    ∧ (∀ r, gzip_file_adapter.read g n = some r → r.2.2._mode = g._mode)
    ∧ (∀ r, gzip_file_adapter.write g bytes = some r → r.2._mode = g._mode)
    ∧ (gzip_file_adapter.reset g)._mode = g._mode := by
  refine ⟨?_, ?_, ?_, ?_, ?_, ?_, rfl, ?_, ?_, rfl⟩
  · intro h; simp [file_adapter.read, h]
  · intro h; simp [file_adapter.write, h]
  · intro h; simp [gzip_file_adapter.read, h]
  · intro h; simp [gzip_file_adapter.write, h]
  · intro r hr
    by_cases hm : s._mode = FileMode.read
    · simp only [file_adapter.read, if_pos hm, Option.some.injEq] at hr
      rw [← hr]
    · simp [file_adapter.read, hm] at hr
  · intro r hr
    by_cases hm : s._mode = FileMode.write
    · simp only [file_adapter.write, if_pos hm, Option.some.injEq] at hr
      rw [← hr]
    · simp [file_adapter.write, hm] at hr
  · intro r hr
    by_cases hm : g._mode = FileMode.read
    · simp only [gzip_file_adapter.read, if_pos hm, Option.some.injEq] at hr
      rw [← hr]
    · simp [gzip_file_adapter.read, hm] at hr
  · intro r hr
    by_cases hm : g._mode = FileMode.write
    · simp only [gzip_file_adapter.write, if_pos hm, Option.some.injEq] at hr
      rw [← hr]
    · simp [gzip_file_adapter.write, hm] at hr

/-- Witness for C5: a concrete write-mode file adapter and read-mode gzip
adapter on which the mismatched calls abort. -/
theorem mode_mismatch_asserts_and_mode_fixed_witness :
    file_adapter.read { fd := none, _mode := FileMode.write } 1 = none
    ∧ gzip_file_adapter.write { _gz_file := none, _mode := FileMode.read } [5] = none :=
  ⟨(mode_mismatch_asserts_and_mode_fixed { fd := none, _mode := FileMode.write }
      { _gz_file := none, _mode := FileMode.read } 1 [5]).1 rfl,
   (mode_mismatch_asserts_and_mode_fixed { fd := none, _mode := FileMode.write }
      { _gz_file := none, _mode := FileMode.read } 1 [5]).2.2.2.1 rfl⟩

/-- C6: every read and write of the compressed adapters (compressed file and
compressed stdio) returns the underlying codec's count when it is positive and
exactly zero otherwise (that is, max of the codec result and 0), so a negative
codec error value is never propagated to the caller. -/
theorem gzip_nonpositive_codec_result_normalized (s t : gzip_file_adapter)
    (u : gzip_stdio_adapter) (n : Nat) (bytes : List Nat) :
    (s._mode = FileMode.read →
      Option.map Prod.fst (gzip_file_adapter.read s n)
        = some (max (gzread s._gz_file n).1 0))
    ∧ (t._mode = FileMode.write →
      Option.map Prod.fst (gzip_file_adapter.write t bytes)
        = some (max (gzwrite t._gz_file bytes).1 0))
    ∧ (gzip_stdio_adapter.read u n).1 = max (gzread u._gz_stdin n).1 0
    ∧ (gzip_stdio_adapter.write u bytes).1 = max (gzwrite u._gz_stdout bytes).1 0 := by
  refine ⟨?_, ?_, ?_, ?_⟩
  · intro h
    simp [gzip_file_adapter.read, h, if_pos_else_zero_eq_max]
  · intro h
    simp [gzip_file_adapter.write, h, if_pos_else_zero_eq_max]
  · simp [gzip_stdio_adapter.read, if_pos_else_zero_eq_max]
  · simp [gzip_stdio_adapter.write, if_pos_else_zero_eq_max]

/-- Witness for C6: a gzip file adapter whose codec is in its error state —
gzread reports -1 and the adapter returns the normalized max, which is 0. -/
theorem gzip_nonpositive_codec_result_normalized_witness :
    Option.map Prod.fst
        (gzip_file_adapter.read
          { _gz_file := some { contents := [1], pos := 0, broken := true },
            _mode := FileMode.read } 4)
      = some (max (gzread (some { contents := [1], pos := 0, broken := true }) 4).1 0) :=
  (gzip_nonpositive_codec_result_normalized
      { _gz_file := some { contents := [1], pos := 0, broken := true }, _mode := FileMode.read }
      { _gz_file := none, _mode := FileMode.write }
      { _gz_stdin := none, _gz_stdout := none } 4 [5]).1 rfl

/-- Helper: closed form of buffer_view::read — the returned count is the
clipped request, the bytes are the corresponding window slice, and the cursor
advances by exactly that count. -/
theorem buffer_view_read_closed (s : buffer_view) (n : Nat) :
    buffer_view.read s n
      = (((min (s.data.length - s.read_head) n : Nat) : Int),
         (s.data.drop s.read_head).take (min (s.data.length - s.read_head) n),
         { data := s.data, read_head := s.read_head + min (s.data.length - s.read_head) n }) := by
  simp only [buffer_view.read]
  split
  next h => rw [h]; simp
  next h => rfl

/-- Sum of the counts returned by a run of reads. -/
def countTotal (outs : List (Int × List Nat)) : Int := (outs.map Prod.fst).sum

/-- Helper: closed form of a run of buffer_view reads — the window is
untouched, the cursor lands at the clipped total, and the returned counts sum
to the clipped total. -/
theorem buffer_view_runReads_closed (rs : List Nat) (s : buffer_view) :
    (buffer_view.runReads s rs).2.data = s.data
    ∧ (buffer_view.runReads s rs).2.read_head
        = s.read_head + min (s.data.length - s.read_head) rs.sum
    ∧ countTotal (buffer_view.runReads s rs).1
        = ((min (s.data.length - s.read_head) rs.sum : Nat) : Int) := by
  induction rs generalizing s with
  | nil => simp [buffer_view.runReads, countTotal]
  | cons n ns ih =>
    have hr := buffer_view_read_closed s n
    simp only [buffer_view.runReads, hr]
    obtain ⟨h1, h2, h3⟩ :=
      ih { data := s.data, read_head := s.read_head + min (s.data.length - s.read_head) n }
    simp only at h1 h2 h3
    refine ⟨h1, ?_, ?_⟩
    · rw [h2]
      simp only [List.sum_cons]
      omega
    · simp only [countTotal, List.map_cons, List.sum_cons] at h3 ⊢
      rw [h3]
      omega

/-- C7: for a buffer_view over a source of length L, a sequence of reads whose
requested sizes sum to more than L returns exactly L bytes in total across the
calls, and any read thereafter returns zero with the state unchanged; reads
and reset preserve the cursor invariant data <= read_head <= data+len (here 0
<= read_head <= data.length, starting at 0); and no read copies past the end:
the delivered bytes are exactly the window slice between the old and the new
cursor position. -/
theorem buffer_view_read_bounds (data rs : List Nat) (s : buffer_view) (n m : Nat)
    (hsum : data.length < rs.sum) :
    countTotal (buffer_view.runReads (buffer_view.construct data) rs).1 = (data.length : Int)
    ∧ buffer_view.read (buffer_view.runReads (buffer_view.construct data) rs).2 m
        = (0, [], (buffer_view.runReads (buffer_view.construct data) rs).2)
    ∧ (buffer_view.construct data).read_head = 0
    ∧ (s.read_head ≤ s.data.length →
        (buffer_view.read s n).2.2.read_head ≤ (buffer_view.read s n).2.2.data.length)
    ∧ (buffer_view.reset s).read_head ≤ (buffer_view.reset s).data.length
    ∧ s.data.drop s.read_head
        = (buffer_view.read s n).2.1 ++ s.data.drop ((buffer_view.read s n).2.2.read_head) := by
  simp only [buffer_view.construct]
  obtain ⟨hd, hh, ht⟩ := buffer_view_runReads_closed rs { data := data, read_head := 0 }
  simp only at hd hh ht
  refine ⟨?_, ?_, ?_, ?_, ?_, ?_⟩
  · rw [ht]
    omega
  · have hmin : min ((buffer_view.runReads { data := data, read_head := 0 } rs).2.data.length
        - (buffer_view.runReads { data := data, read_head := 0 } rs).2.read_head) m = 0 := by
      rw [hd, hh]
      omega
    simp [buffer_view.read, hmin]
  · trivial
  · intro hs
    rw [buffer_view_read_closed]
    dsimp only
    omega
  · simp [buffer_view.reset]
  · rw [buffer_view_read_closed]
    dsimp only
    have hdd : s.data.drop (s.read_head + min (s.data.length - s.read_head) n)
        = (s.data.drop s.read_head).drop (min (s.data.length - s.read_head) n) := by
      rw [List.drop_drop]
    rw [hdd, List.take_append_drop]

/-- Witness for C7: a window of length 2 read with requests summing to 6
returns 2 bytes in total. -/
theorem buffer_view_read_bounds_witness :
    countTotal (buffer_view.runReads (buffer_view.construct [7, 8]) [1, 5]).1
      = (([7, 8] : List Nat).length : Int) :=
  (buffer_view_read_bounds [7, 8] [1, 5] (buffer_view.construct [7, 8]) 1 1 (by decide)).1

/-- Helper: along any well-formed trace the closer state either still has live
owners and the descriptor open, or no owners and the descriptor closed exactly
once. -/
theorem closer_invariant (es : List CloserEvent) (s : CloserState)
    (hwf : closerWf s es = true)
    (hinv : (0 < s.live ∧ s.closed = 0) ∨ (s.live = 0 ∧ s.closed = 1)) :
    (0 < (closerRun s es).live ∧ (closerRun s es).closed = 0)
    ∨ ((closerRun s es).live = 0 ∧ (closerRun s es).closed = 1) := by
  induction es generalizing s with
  | nil => simpa [closerRun] using hinv
  | cons e es ih =>
    simp only [closerWf, Bool.and_eq_true, decide_eq_true_eq] at hwf
    obtain ⟨hpos, hwf2⟩ := hwf
    simp only [closerRun]
    apply ih _ hwf2
    rcases hinv with ⟨h1, h2⟩ | ⟨h1, h2⟩
    · cases e
      · exact Or.inl ⟨Nat.succ_pos _, h2⟩
      · by_cases hl : s.live = 1
        · right
          simp only [closerStep]
          exact ⟨by omega, by simp [hl, h2]⟩
        · left
          simp only [closerStep]
          exact ⟨by omega, by simp [hl, h2]⟩
    · omega

/-- C1: for a socket and any well-formed interleaving of get_reader /
get_writer derivations and destructions of the socket and its derived streams,
the descriptor is closed exactly once, precisely when the last live reference
is destroyed: while any reference is live it has been closed zero times, once
none is live it has been closed exactly once, and it is never closed twice. -/
theorem socket_descriptor_closed_exactly_once (es : List CloserEvent)
    (hwf : closerWf closerInit es = true) :
    ((closerRun closerInit es).live = 0 → (closerRun closerInit es).closed = 1)
    ∧ (0 < (closerRun closerInit es).live → (closerRun closerInit es).closed = 0)
    ∧ (closerRun closerInit es).closed ≤ 1 := by
  have h := closer_invariant es closerInit hwf (Or.inl ⟨Nat.one_pos, rfl⟩)
  rcases h with ⟨h1, h2⟩ | ⟨h1, h2⟩ <;> exact ⟨by omega, by omega, by omega⟩

/-- Witness for C1: socket constructed, one reader and one writer derived, all
three owners destroyed — the descriptor ends up closed exactly once. -/
theorem socket_descriptor_closed_exactly_once_witness :
    (closerRun closerInit
        [CloserEvent.derive, CloserEvent.derive, CloserEvent.destroy,
         CloserEvent.destroy, CloserEvent.destroy]).closed = 1 :=
  (socket_descriptor_closed_exactly_once
      [CloserEvent.derive, CloserEvent.derive, CloserEvent.destroy,
       CloserEvent.destroy, CloserEvent.destroy] (by decide)).1 (by decide)

/-- Helper: a read-mode file adapter on a valid descriptor never hits the mode
assertion; a run of reads leaves the file contents alone and only advances the
offset. -/
theorem file_runReads_read_mode (rs : List Nat) (c : List Nat) (p : Nat) :
    ∃ outs k, file_adapter.runReads
        { fd := some { contents := c, pos := p }, _mode := FileMode.read } rs
      = some (outs, { fd := some { contents := c, pos := p + k }, _mode := FileMode.read }) := by
  induction rs generalizing p with
  | nil => exact ⟨[], 0, rfl⟩
  | cons n ns ih =>
    obtain ⟨outs, k, hk⟩ := ih (p + ((c.drop p).take n).length)
    refine ⟨((((c.drop p).take n).length : Int), (c.drop p).take n) :: outs,
      ((c.drop p).take n).length + k, ?_⟩
    have hread : file_adapter.read
        { fd := some { contents := c, pos := p }, _mode := FileMode.read } n
        = some ((((c.drop p).take n).length : Int), (c.drop p).take n,
            { fd := some { contents := c, pos := p + ((c.drop p).take n).length },
              _mode := FileMode.read }) := rfl
    simp only [file_adapter.runReads, hread, hk]
    rw [Nat.add_assoc]

/-- Helper: a read-mode gzip adapter on a healthy handle never hits the mode
assertion; a run of reads leaves the uncompressed contents alone and only
advances the position. -/
theorem gzip_runReads_read_mode (rs : List Nat) (c : List Nat) (p : Nat) :
    ∃ outs k, gzip_file_adapter.runReads
        { _gz_file := some { contents := c, pos := p, broken := false },
          _mode := FileMode.read } rs
      = some (outs, { _gz_file := some { contents := c, pos := p + k, broken := false }, _mode := FileMode.read }) := by
  induction rs generalizing p with
  | nil => exact ⟨[], 0, rfl⟩
  | cons n ns ih =>
    obtain ⟨outs, k, hk⟩ := ih (p + ((c.drop p).take n).length)
    refine ⟨((if (((c.drop p).take n).length : Int) > 0
        then (((c.drop p).take n).length : Int) else 0), (c.drop p).take n) :: outs,
      ((c.drop p).take n).length + k, ?_⟩
    have hread : gzip_file_adapter.read
        { _gz_file := some { contents := c, pos := p, broken := false },
          _mode := FileMode.read } n
        = some ((if (((c.drop p).take n).length : Int) > 0
              then (((c.drop p).take n).length : Int) else 0), (c.drop p).take n,
            { _gz_file := some { contents := c, pos := p + ((c.drop p).take n).length, broken := false }, _mode := FileMode.read }) := rfl
    simp only [gzip_file_adapter.runReads, hread, hk]
    rw [Nat.add_assoc]

/-- C9: for each resettable adapter — buffer_view, plain file, compressed
file — reading a freshly opened stream through any sequence of requests (in
particular one that reaches end-of-stream), calling reset(), then reading the
same sequence again yields byte-for-byte identical output, ending in the same
state. -/
theorem resettable_replay_identical (data c d : List Nat) (rs : List Nat)
    (outs : List (Int × List Nat)) (s1 : file_adapter)
    (outs2 : List (Int × List Nat)) (g1 : gzip_file_adapter) :
    buffer_view.runReads (buffer_view.reset
        (buffer_view.runReads (buffer_view.construct data) rs).2) rs
      = buffer_view.runReads (buffer_view.construct data) rs
    ∧ (file_adapter.runReads (file_adapter.freshRead c) rs = some (outs, s1) →
        file_adapter.runReads (file_adapter.reset s1) rs = some (outs, s1))
    ∧ (gzip_file_adapter.runReads (gzip_file_adapter.freshRead d) rs = some (outs2, g1) →
        gzip_file_adapter.runReads (gzip_file_adapter.reset g1) rs = some (outs2, g1)) := by
  refine ⟨?_, ?_, ?_⟩
  · have h1 := (buffer_view_runReads_closed rs (buffer_view.construct data)).1
    simp only [buffer_view.construct] at h1
    have hreset : buffer_view.reset (buffer_view.runReads (buffer_view.construct data) rs).2
        = buffer_view.construct data := by
      simp only [buffer_view.reset, buffer_view.construct, h1]
    rw [hreset]
  · intro h
    obtain ⟨outs', k, hk⟩ := file_runReads_read_mode rs c 0
    simp only [file_adapter.freshRead] at h
    rw [h] at hk
    have hp := Option.some.inj hk
    have hs1 : s1 = { fd := some { contents := c, pos := 0 + k }, _mode := FileMode.read } :=
      congrArg Prod.snd hp
    have hreset : file_adapter.reset s1
        = { fd := some { contents := c, pos := 0 }, _mode := FileMode.read } := by
      rw [hs1]
      rfl
    rw [hreset]
    exact h
  · intro h
    obtain ⟨outs', k, hk⟩ := gzip_runReads_read_mode rs d 0
    simp only [gzip_file_adapter.freshRead] at h
    rw [h] at hk
    have hp := Option.some.inj hk
    have hg1 : g1 = { _gz_file := some { contents := d, pos := 0 + k, broken := false }, _mode := FileMode.read } := congrArg Prod.snd hp
    have hreset : gzip_file_adapter.reset g1
        = { _gz_file := some { contents := d, pos := 0, broken := false }, _mode := FileMode.read } := by
      rw [hg1]
      rfl
    rw [hreset]
    exact h

/-- Witness for C9: a one-byte file and gzip stream read to end of stream,
reset, and read again, reproducing the same single-byte output. -/
theorem resettable_replay_identical_witness :
    file_adapter.runReads (file_adapter.reset
        { fd := some { contents := [3], pos := 1 }, _mode := FileMode.read }) [1]
      = some ([(1, [3])], { fd := some { contents := [3], pos := 1 }, _mode := FileMode.read })
    ∧ gzip_file_adapter.runReads (gzip_file_adapter.reset
        { _gz_file := some { contents := [3], pos := 1, broken := false },
          _mode := FileMode.read }) [1]
      = some ([(1, [3])], { _gz_file := some { contents := [3], pos := 1, broken := false }, _mode := FileMode.read }) :=
  ⟨(resettable_replay_identical [] [3] [3] [1] [(1, [3])]
      { fd := some { contents := [3], pos := 1 }, _mode := FileMode.read } [(1, [3])]
      { _gz_file := some { contents := [3], pos := 1, broken := false },
        _mode := FileMode.read }).2.1 (by decide),
   (resettable_replay_identical [] [3] [3] [1] [(1, [3])]
      { fd := some { contents := [3], pos := 1 }, _mode := FileMode.read } [(1, [3])]
      { _gz_file := some { contents := [3], pos := 1, broken := false },
        _mode := FileMode.read }).2.2 (by decide)⟩
